import Mathlib

/-!
# LazyServo: a shallow embedding of `src/LazyServo.h`

`LazyServo<PIN, RT>` is a four-state, poll-driven controller for a hobby servo.
The embedding keeps the class's fields and member functions under their source
names.  The template parameter `RT` (the real type, `F32` by default) is
instantiated with the rationals, so that arithmetic is exact; `U16` values are
naturals reduced modulo `2^16` at every conversion; `DBG`/`DBGn` output is not
modelled.

Two collaborators are declared outside the repository's source file and are
modelled from the specification: the `Servo` driver and the `ChronoTrigger`
scheduling primitive the class inherits from.  Both record the calls they
receive, so that "what was sent to the driver" is an observable of the model.
-/

namespace Duino

/-! ## Type aliases -/

/-- State identifier of the scheduling primitive (`ChronoState`, an integer type). -/
abbrev ChronoState := Nat

/-- A duration in microseconds (`TimeSpan`). -/
abbrev TimeSpan := Nat

/-- A reading of the monotonic microsecond counter. -/
abbrev TimeStamp := Nat

/-- The pin a servo is attached to (`PinNumber`, the template parameter `PIN`). -/
abbrev PinNumber := Nat

/-- The real type `RT` of the class template, instantiated with exact rationals. -/
abbrev RT := ℚ

/-- Conversion of an integer to `U16`: reduction modulo `2^16`. -/
def toU16 (z : ℤ) : ℕ := (z % 65536).toNat

/-- The C library's `lround`: nearest integer, halfway cases away from zero.  The `long`
result is an unbounded integer here; it is narrowed only by the conversion to `U16`. -/
def lround (x : ℚ) : ℤ := if 0 ≤ x then ⌊x + 1 / 2⌋ else ⌈x - 1 / 2⌉

/-- The `abs` macro of the Arduino core: `((x) > 0 ? (x) : -(x))`. -/
def abs (x : ℚ) : ℚ := if x > 0 then x else -x

/-! ## The pulse driver -/

/-- A call received by the pulse driver. -/
inductive ServoCall where
  | attach (pin : PinNumber)
  | detach
  | writeMicroseconds (us : ℕ)
deriving DecidableEq

/-- Modelled from the spec: the `Servo` pulse driver of `<Servo.h>`, which is not part of
the source file.  It "exposes attach(pin)/detach()/write-pulse-width(microseconds)"; the
model keeps the attach state and the history of calls. -/
structure Servo where
  attached : Bool
  calls : List ServoCall
deriving DecidableEq

namespace Servo

/-- Modelled from the spec: a freshly declared driver object is detached and has received
no call (`Servo servo;`). -/
def init : Servo := { attached := false, calls := [] }

/-- Modelled from the spec: `attach(pin)` of the driver. -/
def attach (pin : PinNumber) (sv : Servo) : Servo :=
  { attached := true, calls := sv.calls ++ [ServoCall.attach pin] }

/-- Modelled from the spec: `detach()` of the driver. -/
def detach (sv : Servo) : Servo :=
  { attached := false, calls := sv.calls ++ [ServoCall.detach] }

/-- Modelled from the spec: `write_pulse_width(microseconds)` of the driver. -/
def writeMicroseconds (us : ℕ) (sv : Servo) : Servo :=
  { sv with calls := sv.calls ++ [ServoCall.writeMicroseconds us] }

end Servo

/-! ## The scheduling primitive -/

/-- A call received by the scheduling primitive. -/
inductive ChronoCall where
  | go_next (state : ChronoState)
  | go_after (state : ChronoState) (delay : TimeSpan) (flag : Bool)
  | go_after_sleep (state : ChronoState) (delay : TimeSpan)
  | cancel_scheduled_state
deriving DecidableEq

/-- Modelled from the spec: the `ChronoTrigger` base class, which is not part of the source
file.  It holds the single pending transition, "a (state, due-time) pair representing the
next state the machine will enter once polled after that time", and the history of the
scheduling calls it received. -/
structure ChronoTrigger where
  pending : Option (ChronoState × TimeStamp)
  calls : List ChronoCall
deriving DecidableEq

namespace ChronoTrigger

/-- Modelled from the spec: a scheduler with nothing arranged yet. -/
def init : ChronoTrigger := { pending := none, calls := [] }

/-- Modelled from the spec: `where_to_go()`, the state that is due at time `now`, if any
("consults the scheduler to see which state is due"). -/
def where_to_go (now : TimeStamp) (c : ChronoTrigger) : Option ChronoState :=
  match c.pending with
  | some (st, due) => if due ≤ now then some st else none
  | none => none

/-- Modelled from the spec: `go_next(state)`, the arrangement with zero delay: the state
becomes due "immediately if delay is zero", superseding the previous arrangement. -/
def go_next (now : TimeStamp) (st : ChronoState) (c : ChronoTrigger) : ChronoTrigger :=
  { pending := some (st, now), calls := c.calls ++ [ChronoCall.go_next st] }

/-- Modelled from the spec: `go_after(state, delay, flag)`: "arranges for that state to
become due after the delay elapses"; "a newly scheduled transition always supersedes a
previous one". -/
def go_after (now : TimeStamp) (st : ChronoState) (delay : TimeSpan) (flag : Bool)
    (c : ChronoTrigger) : ChronoTrigger :=
  { pending := some (st, now + delay), calls := c.calls ++ [ChronoCall.go_after st delay flag] }

/-- Modelled from the spec: `go_after_sleep(state, delay)`: the state is re-scheduled "to
become due again after" the delay. -/
def go_after_sleep (now : TimeStamp) (st : ChronoState) (delay : TimeSpan)
    (c : ChronoTrigger) : ChronoTrigger :=
  { pending := some (st, now + delay), calls := c.calls ++ [ChronoCall.go_after_sleep st delay] }

/-- Modelled from the spec: `cancel_scheduled_state()`, the "cancellation of a pending
arrangement". -/
def cancel_scheduled_state (c : ChronoTrigger) : ChronoTrigger :=
  { pending := none, calls := c.calls ++ [ChronoCall.cancel_scheduled_state] }

end ChronoTrigger

/-! ## The controller -/

namespace LazyServo

/-- `def_state MonitorWhileAwake = 1;` -/
def MonitorWhileAwake : ChronoState := 1

/-- `def_state MonitorWhileAsleep = 2;` -/
def MonitorWhileAsleep : ChronoState := 2

/-- `def_state ServoSleep = 3;` -/
def ServoSleep : ChronoState := 3

/-- `def_state ServoWakeup = 4;` -/
def ServoWakeup : ChronoState := 4

end LazyServo

/-- The fields of `LazyServo<PIN, RT>`, with the template parameter `PIN` and the
inherited scheduler as components. -/
structure LazyServo where
  PIN : PinNumber
  move_lazyness_thresh : RT
  check_interval : TimeSpan
  timeout_before_dozing : ℕ
  min_usecs : RT
  max_usecs : RT
  prev_adjusted_value : RT
  target_value : RT
  servo : Servo
  chrono : ChronoTrigger
deriving DecidableEq

namespace LazyServo

/-- `set_servo_limits(U16 min_usecs_, U16 max_usecs_)`: the arguments are converted to
`U16` at the call and stored in the `RT` fields. -/
def set_servo_limits (min_usecs_ max_usecs_ : ℕ) (s : LazyServo) : LazyServo :=
  { s with min_usecs := ((min_usecs_ % 65536 : ℕ) : ℚ),
           max_usecs := ((max_usecs_ % 65536 : ℕ) : ℚ) }

/-- The constructor, called at time `now` with every argument given.  The field
initialisers give `prev_adjusted_value = RT(-1.0)`; `timeout_before_dozing_` is a `U16`
parameter; the body sets the pulse limits and arms `MonitorWhileAsleep`. -/
def new (PIN : PinNumber) (now : TimeStamp) (move_lazyness_thresh_ : RT)
    (check_interval_ : TimeSpan) (timeout_before_dozing_ : ℕ) (min_usecs_ max_usecs_ : ℕ)
    (initial_position_ : RT) : LazyServo :=
  let s : LazyServo :=
    { PIN := PIN,
      move_lazyness_thresh := move_lazyness_thresh_,
      check_interval := check_interval_,
      timeout_before_dozing := timeout_before_dozing_ % 65536,
      min_usecs := 0,
      max_usecs := 0,
      prev_adjusted_value := -1,
      target_value := initial_position_,
      servo := Servo.init,
      chrono := ChronoTrigger.init }
  let s := set_servo_limits min_usecs_ max_usecs_ s
  { s with chrono := s.chrono.go_next now MonitorWhileAsleep }

/-- The constructor with the default arguments of its declaration. -/
def newDefault (PIN : PinNumber) (now : TimeStamp) : LazyServo :=
  new PIN now (1 / 1000) (100 * 1000) (2000 * 1000) 500 2500 (1 / 2)

/-- `set(RT value_)`. -/
def set (value_ : RT) (s : LazyServo) : LazyServo :=
  { s with target_value := value_ }

/-- `get()`. -/
def get (s : LazyServo) : RT := s.target_value

/-- `breach_lazyness_threshold()`. -/
def breach_lazyness_threshold (s : LazyServo) : Bool :=
  decide (abs (s.target_value - s.prev_adjusted_value) > s.move_lazyness_thresh)

/-- The value of the local `U16 target_position_micros` in `adjust_servo`. -/
def target_position_micros (s : LazyServo) : ℕ :=
  toU16 (lround (s.min_usecs + ((s.max_usecs - s.min_usecs) * s.target_value)))

/-- `adjust_servo()`: the physical write. -/
def adjust_servo (s : LazyServo) : LazyServo :=
  { s with servo := s.servo.writeMicroseconds (target_position_micros s),
           prev_adjusted_value := s.target_value }

/-- `update()`, polled at time `now`: one `switch` on `where_to_go()`; a value that matches
no `case` leaves the controller as it is. -/
def update (now : TimeStamp) (s : LazyServo) : LazyServo :=
  let w := s.chrono.where_to_go now
  if w = some MonitorWhileAsleep then
    if breach_lazyness_threshold s then
      let s := { s with chrono := s.chrono.cancel_scheduled_state }
      { s with chrono := s.chrono.go_next now ServoWakeup }
    else
      { s with chrono := s.chrono.go_after_sleep now MonitorWhileAsleep s.check_interval }
  else if w = some MonitorWhileAwake then
    if breach_lazyness_threshold s then
      let s := adjust_servo s
      { s with chrono := s.chrono.go_after now MonitorWhileAwake s.check_interval true }
    else
      { s with chrono := s.chrono.go_after now ServoSleep s.timeout_before_dozing false }
  else if w = some ServoWakeup then
    let s := { s with servo := s.servo.attach s.PIN }
    let s := adjust_servo s
    { s with chrono := s.chrono.go_next now MonitorWhileAwake }
  else if w = some ServoSleep then
    let s := { s with servo := s.servo.detach }
    { s with chrono := s.chrono.go_next now MonitorWhileAsleep }
  else
    s

/-- `set_now(RT value_)`, called at time `now`. -/
def set_now (now : TimeStamp) (value_ : RT) (s : LazyServo) : LazyServo :=
  update now { s with target_value := value_ }

/-! ## Runs of the public interface -/

/-- A call of the public interface; the calls that poll carry the clock reading. -/
inductive Op where
  | set (value_ : RT)
  | set_now (now : TimeStamp) (value_ : RT)
  | get
  | set_servo_limits (min_usecs_ max_usecs_ : ℕ)
  | update (now : TimeStamp)
deriving DecidableEq

/-- The effect of one call on the controller (`get` only reads). -/
def step (op : Op) (s : LazyServo) : LazyServo :=
  match op with
  | Op.set v => set v s
  | Op.set_now now v => set_now now v s
  | Op.get => s
  | Op.set_servo_limits lo hi => set_servo_limits lo hi s
  | Op.update now => update now s

/-- The controller after a sequence of calls, the first call first. -/
def run (s : LazyServo) : List Op → LazyServo
  | [] => s
  | op :: ops => run (step op s) ops

/-- The value `where_to_go()` hands to the `switch` of `update` during a call, that is the
branch the call executes; `none` for the calls that do not poll. -/
def branch (op : Op) (s : LazyServo) : Option ChronoState :=
  match op with
  | Op.set_now now _ => s.chrono.where_to_go now
  | Op.update now => s.chrono.where_to_go now
  | _ => none

/-- The branches executed along a sequence of calls, oldest first. -/
def branches (s : LazyServo) : List Op → List (Option ChronoState)
  | [] => []
  | op :: ops => branch op s :: branches (step op s) ops

/-- Scanning a history of executed branches oldest first, starting from `init`: `true`
after a `ServoWakeup`, `false` after a `ServoSleep`, unchanged by anything else. -/
def wakeupMoreRecent (init : Bool) : List (Option ChronoState) → Bool
  | [] => init
  | b :: bs =>
    if b = some ServoWakeup then wakeupMoreRecent true bs
    else if b = some ServoSleep then wakeupMoreRecent false bs
    else wakeupMoreRecent init bs

/-- The pending state agrees with the attach state: the driver is attached when
`MonitorWhileAwake` or `ServoSleep` is pending and detached when `MonitorWhileAsleep` or
`ServoWakeup` is. -/
def Coherent (s : LazyServo) : Prop :=
  ∃ st due, s.chrono.pending = some (st, due) ∧
    (((st = MonitorWhileAwake ∨ st = ServoSleep) ∧ s.servo.attached = true) ∨
     ((st = MonitorWhileAsleep ∨ st = ServoWakeup) ∧ s.servo.attached = false))

/-! ## Sample controllers -/

/-- A controller with lazyness threshold 1/100 and otherwise default arguments, built at
time 0. -/
def sampleNew : LazyServo := new 9 0 (1 / 100) (100 * 1000) (2000 * 1000) 500 2500 (1 / 2)

/-- The sample controller after two polls at time 0: it has woken up and written its
initial target. -/
def sampleAwake : LazyServo := update 0 (update 0 sampleNew)

/-- A controller with default arguments except the lazyness threshold 2, built at time 0. -/
def sampleCoarse : LazyServo :=
  new 9 0 2 (100 * 1000) (2000 * 1000) 500 2500 (1 / 2)

/-- A controller with lazyness threshold 0 and otherwise default arguments, built at time 0
and polled twice at time 0: it has woken up and written its initial target. -/
def sampleZero : LazyServo :=
  update 0 (update 0 (new 9 0 0 (100 * 1000) (2000 * 1000) 500 2500 (1 / 2)))

/-- The controller with threshold 2 after the target 5 was set and a poll at time 0 armed
`ServoWakeup`, and the target was then set back to 1/2, within the threshold of the
sentinel. -/
def sampleWakeupQuiet : LazyServo := set (1 / 2) (update 0 (set 5 sampleCoarse))

end LazyServo

/-- The pulse widths among a list of driver calls, in order. -/
def pulses : List ServoCall → List ℕ
  | [] => []
  | ServoCall.writeMicroseconds us :: cs => us :: pulses cs
  | _ :: cs => pulses cs

/-- The number of `detach` calls among a list of driver calls. -/
def detaches : List ServoCall → ℕ
  | [] => 0
  | ServoCall.detach :: cs => detaches cs + 1
  | _ :: cs => detaches cs

/-- The state a scheduling call arms, if it arms one. -/
def armed : ChronoCall → Option ChronoState
  | ChronoCall.go_next st => some st
  | ChronoCall.go_after st _ _ => some st
  | ChronoCall.go_after_sleep st _ => some st
  | ChronoCall.cancel_scheduled_state => none

/-- The states armed by a list of scheduling calls, in order. -/
def arms (cs : List ChronoCall) : List ChronoState := cs.filterMap armed

/-- The attach state of the driver after a list of calls, starting from `init`. -/
def attachedAfterCalls (init : Bool) : List ServoCall → Bool
  | [] => init
  | ServoCall.attach _ :: cs => attachedAfterCalls true cs
  | ServoCall.detach :: cs => attachedAfterCalls false cs
  | ServoCall.writeMicroseconds _ :: cs => attachedAfterCalls init cs

/-- Replaying a list of driver calls from the attach state `att`: every `writeMicroseconds`
arrives while the driver is attached. -/
def writesAttached (att : Bool) : List ServoCall → Bool
  | [] => true
  | ServoCall.attach _ :: cs => writesAttached true cs
  | ServoCall.detach :: cs => writesAttached false cs
  | ServoCall.writeMicroseconds _ :: cs => att && writesAttached att cs

/-- The driver's attach flag is the one its call history gives from a detached start, and
in that history every write arrives while the driver is attached. -/
def WritesSafe (s : LazyServo) : Prop :=
  attachedAfterCalls false s.servo.calls = s.servo.attached
    ∧ writesAttached false s.servo.calls = true

/-! ## Arithmetic of the pulse computation -/

theorem lround_of_nonneg {x : ℚ} (hx : 0 ≤ x) : lround x = ⌊x + 1 / 2⌋ := by
  simp [lround, hx]

theorem lround_of_neg {x : ℚ} (hx : x < 0) : lround x = ⌈x - 1 / 2⌉ := by
  simp [lround, not_le.mpr hx]

/-- An argument between two integers is rounded to an integer between them. -/
theorem lround_mem_Icc {x : ℚ} {a b : ℤ} (ha : (a : ℚ) ≤ x) (hb : x ≤ (b : ℚ)) :
    a ≤ lround x ∧ lround x ≤ b := by
  by_cases hx : 0 ≤ x
  · rw [lround_of_nonneg hx]
    constructor
    · rw [Int.le_floor]; linarith
    · have h : ⌊x + 1 / 2⌋ < b + 1 := by
        rw [Int.floor_lt]; push_cast; linarith
      omega
  · rw [lround_of_neg (not_le.mp hx)]
    constructor
    · have h : a - 1 < ⌈x - 1 / 2⌉ := by
        rw [Int.lt_ceil]; push_cast; linarith
      omega
    · rw [Int.ceil_le]; linarith

/-- A value that fits in sixteen bits is unchanged by the conversion to `U16`. -/
theorem toU16_of_lt {z : ℤ} (h0 : 0 ≤ z) (h1 : z < 65536) : ((toU16 z : ℕ) : ℤ) = z := by
  unfold toU16
  rw [Int.emod_eq_of_lt h0 h1, Int.toNat_of_nonneg h0]

/-- The linear map of the physical write stays between its two bounds on `[0, 1]`. -/
theorem pulse_between (lo hi : ℕ) {t : ℚ} (h0 : 0 ≤ t) (h1 : t ≤ 1) :
    ((min lo hi : ℕ) : ℚ) ≤ (lo : ℚ) + ((hi : ℚ) - (lo : ℚ)) * t ∧
      (lo : ℚ) + ((hi : ℚ) - (lo : ℚ)) * t ≤ ((max lo hi : ℕ) : ℚ) := by
  rcases le_total lo hi with h | h
  · have hq : (lo : ℚ) ≤ (hi : ℚ) := by exact_mod_cast h
    rw [min_eq_left h, max_eq_right h]
    constructor <;> nlinarith
  · have hq : (hi : ℚ) ≤ (lo : ℚ) := by exact_mod_cast h
    rw [min_eq_right h, max_eq_left h]
    constructor <;> nlinarith

theorem abs_eq (x : ℚ) : abs x = |x| := by
  unfold abs
  split_ifs with h
  · exact (abs_of_pos h).symm
  · exact (abs_of_nonpos (not_lt.mp h)).symm

theorem pulses_append (xs ys : List ServoCall) : pulses (xs ++ ys) = pulses xs ++ pulses ys := by
  induction xs with
  | nil => rfl
  | cons c cs ih => cases c <;> simp [pulses, ih]

theorem detaches_append (xs ys : List ServoCall) :
    detaches (xs ++ ys) = detaches xs + detaches ys := by
  induction xs with
  | nil => simp [detaches]
  | cons c cs ih => cases c <;> simp_arith [detaches, ih]

theorem detaches_append_detach (xs : List ServoCall) :
    detaches (xs ++ [ServoCall.detach]) = detaches xs + 1 := by
  rw [detaches_append]; rfl

theorem lround_mono {x y : ℚ} (h : x ≤ y) : lround x ≤ lround y := by
  by_cases hx : 0 ≤ x
  · rw [lround_of_nonneg hx, lround_of_nonneg (le_trans hx h)]
    exact Int.floor_mono (by linarith)
  · have hx' : x < 0 := not_le.mp hx
    by_cases hy : 0 ≤ y
    · have h1 := (lround_mem_Icc (x := x) (a := ⌈x - 1 / 2⌉ - 1) (b := 0)
        (by have := Int.ceil_lt_add_one (x - 1 / 2); push_cast; linarith)
        (by simpa using le_of_lt hx')).2
      have h2 := (lround_mem_Icc (x := y) (a := 0) (b := ⌊y + 1 / 2⌋ + 1)
        (by simpa using hy)
        (by have := Int.lt_floor_add_one (y + 1 / 2); push_cast; linarith)).1
      omega
    · rw [lround_of_neg hx', lround_of_neg (not_le.mp hy)]
      exact Int.ceil_mono (by linarith)

theorem attachedAfterCalls_append (a : Bool) (xs ys : List ServoCall) :
    attachedAfterCalls a (xs ++ ys) = attachedAfterCalls (attachedAfterCalls a xs) ys := by
  induction xs generalizing a with
  | nil => rfl
  | cons c cs ih => cases c <;> simp [attachedAfterCalls, ih]

theorem writesAttached_append (a : Bool) (xs ys : List ServoCall) :
    writesAttached a (xs ++ ys)
      = (writesAttached a xs && writesAttached (attachedAfterCalls a xs) ys) := by
  induction xs generalizing a with
  | nil => simp [writesAttached, attachedAfterCalls]
  | cons c cs ih => cases c <;> simp [writesAttached, attachedAfterCalls, ih, Bool.and_assoc]

/-- In a history where every write arrives attached, the calls before any write leave the
driver attached. -/
theorem attached_before_write {a : Bool} {pre post : List ServoCall} {us : ℕ}
    (h : writesAttached a (pre ++ ServoCall.writeMicroseconds us :: post) = true) :
    attachedAfterCalls a pre = true := by
  rw [writesAttached_append] at h
  simp [writesAttached] at h
  exact h.2.1

namespace LazyServo

/-! ## The branches of `update` -/

theorem breach_iff (s : LazyServo) :
    breach_lazyness_threshold s = true ↔
      s.move_lazyness_thresh < |s.target_value - s.prev_adjusted_value| := by
  simp [breach_lazyness_threshold, abs_eq]

theorem breach_false_iff (s : LazyServo) :
    breach_lazyness_threshold s = false ↔
      |s.target_value - s.prev_adjusted_value| ≤ s.move_lazyness_thresh := by
  simp [breach_lazyness_threshold, abs_eq]

theorem update_asleep_breach {s : LazyServo} {now : TimeStamp}
    (h : s.chrono.where_to_go now = some MonitorWhileAsleep)
    (hb : breach_lazyness_threshold s = true) :
    update now s =
      { s with chrono := (s.chrono.cancel_scheduled_state).go_next now ServoWakeup } := by
  simp [update, h, hb]

theorem update_asleep_quiet {s : LazyServo} {now : TimeStamp}
    (h : s.chrono.where_to_go now = some MonitorWhileAsleep)
    (hb : breach_lazyness_threshold s = false) :
    update now s =
      { s with chrono := s.chrono.go_after_sleep now MonitorWhileAsleep s.check_interval } := by
  simp [update, h, hb]

theorem update_awake_breach {s : LazyServo} {now : TimeStamp}
    (h : s.chrono.where_to_go now = some MonitorWhileAwake)
    (hb : breach_lazyness_threshold s = true) :
    update now s =
      { adjust_servo s with
        chrono := s.chrono.go_after now MonitorWhileAwake s.check_interval true } := by
  simp [update, h, hb, MonitorWhileAwake, MonitorWhileAsleep, adjust_servo]

theorem update_awake_quiet {s : LazyServo} {now : TimeStamp}
    (h : s.chrono.where_to_go now = some MonitorWhileAwake)
    (hb : breach_lazyness_threshold s = false) :
    update now s =
      { s with chrono := s.chrono.go_after now ServoSleep s.timeout_before_dozing false } := by
  simp [update, h, hb, MonitorWhileAwake, MonitorWhileAsleep]

theorem update_wakeup {s : LazyServo} {now : TimeStamp}
    (h : s.chrono.where_to_go now = some ServoWakeup) :
    update now s =
      { adjust_servo { s with servo := s.servo.attach s.PIN } with
        chrono := s.chrono.go_next now MonitorWhileAwake } := by
  simp [update, h, MonitorWhileAwake, MonitorWhileAsleep, ServoWakeup, adjust_servo]

theorem update_sleep {s : LazyServo} {now : TimeStamp}
    (h : s.chrono.where_to_go now = some ServoSleep) :
    update now s =
      { s with servo := s.servo.detach,
               chrono := s.chrono.go_next now MonitorWhileAsleep } := by
  simp [update, h, MonitorWhileAwake, MonitorWhileAsleep, ServoWakeup, ServoSleep]

theorem update_idle {s : LazyServo} {now : TimeStamp}
    (h : s.chrono.where_to_go now = none) : update now s = s := by
  simp [update, h]

/-- The pending arrangement is due from its due time on. -/
theorem where_to_go_pending {c : ChronoTrigger} {st : ChronoState} (due : TimeStamp)
    {now : TimeStamp} (h : c.pending = some (st, due)) (hd : due ≤ now) : c.where_to_go now = some st := by
  simp [ChronoTrigger.where_to_go, h, hd]

/-- Before its due time the pending arrangement is not handed out. -/
theorem where_to_go_early {c : ChronoTrigger} (st : ChronoState) (due : TimeStamp)
    {now : TimeStamp} (h : c.pending = some (st, due)) (hd : now < due) : c.where_to_go now = none := by
  simp [ChronoTrigger.where_to_go, h, not_le.mpr hd]

/-- What `where_to_go` hands out is the state of the pending arrangement. -/
theorem pending_of_where_to_go {c : ChronoTrigger} {st : ChronoState} {now : TimeStamp}
    (h : c.where_to_go now = some st) : ∃ due, c.pending = some (st, due) ∧ due ≤ now := by
  unfold ChronoTrigger.where_to_go at h
  split at h
  · rename_i st1 due heq
    split_ifs at h with hd
    simp only [Option.some.injEq] at h
    exact ⟨due, by rw [heq, h], hd⟩
  · simp at h

/-! ## The physical write -/

/-- C5: when a poll at time `now1` with `MonitorWhileAwake` due finds no breach, it sends
nothing to the driver and leaves `ServoSleep` pending with due time
`now1 + timeout_before_dozing`; a next poll at a time `now2` at or after that due time runs
`ServoSleep`: the driver receives exactly one call, `detach`, `MonitorWhileAsleep` is
pending and due at once, and the target and the last written value are unchanged. -/
theorem dozing (s : LazyServo) (now1 now2 : TimeStamp)
    (h : s.chrono.where_to_go now1 = some MonitorWhileAwake)
    (hb : breach_lazyness_threshold s = false)
    (ht : now1 + s.timeout_before_dozing ≤ now2) :
    (update now1 s).servo = s.servo
    ∧ (update now1 s).chrono.pending = some (ServoSleep, now1 + s.timeout_before_dozing)
    ∧ (update now1 s).chrono.where_to_go now2 = some ServoSleep
    ∧ (update now2 (update now1 s)).servo.calls = s.servo.calls ++ [ServoCall.detach]
    ∧ detaches (update now2 (update now1 s)).servo.calls = detaches s.servo.calls + 1
    ∧ (update now2 (update now1 s)).servo.attached = false
    ∧ (update now2 (update now1 s)).chrono.pending = some (MonitorWhileAsleep, now2)
    ∧ (update now2 (update now1 s)).chrono.where_to_go now2 = some MonitorWhileAsleep
    ∧ (update now2 (update now1 s)).target_value = s.target_value
    ∧ (update now2 (update now1 s)).prev_adjusted_value = s.prev_adjusted_value := by
  have h1 := update_awake_quiet h hb
  have hw : (update now1 s).chrono.where_to_go now2 = some ServoSleep := by
    rw [h1]
    exact where_to_go_pending (now1 + s.timeout_before_dozing) rfl ht
  have h2 := update_sleep hw
  have hc : (update now2 (update now1 s)).servo.calls = s.servo.calls ++ [ServoCall.detach] := by
    rw [h2, h1]; rfl
  refine ⟨?_, ?_, hw, hc, ?_, ?_, ?_, ?_, ?_, ?_⟩
  · rw [h1]
  · rw [h1]; rfl
  · rw [hc]; exact detaches_append_detach s.servo.calls
  · rw [h2]; rfl
  · rw [h2]; rfl
  · rw [h2]; exact where_to_go_pending now2 rfl (le_refl now2)
  · rw [h2, h1]
  · rw [h2, h1]

/-- Witness for C5: the default controller after its wake-up, polled at time 10 and again
at time 40000, past its stored dozing timeout. -/
theorem dozing_witness :
    ((update 0 (update 0 (newDefault 9 0))).chrono.where_to_go 10 = some MonitorWhileAwake
      ∧ breach_lazyness_threshold (update 0 (update 0 (newDefault 9 0))) = false
      ∧ 10 + (update 0 (update 0 (newDefault 9 0))).timeout_before_dozing ≤ 40000)
    ∧ (update 40000 (update 10 (update 0 (update 0 (newDefault 9 0))))).servo.calls
        = [ServoCall.attach 9, ServoCall.writeMicroseconds 1500, ServoCall.detach] :=
  ⟨⟨by decide!, by decide!, by decide!⟩,
    (dozing (update 0 (update 0 (newDefault 9 0))) 10 40000 (by decide!) (by decide!)
      (by decide!)).2.2.2.1.trans (by decide!)⟩

/-! ## Wake on demand -/

theorem coherent_new (PIN : PinNumber) (t0 : TimeStamp) (th : RT) (ci : TimeSpan)
    (T lo hi : ℕ) (init : RT) : Coherent (new PIN t0 th ci T lo hi init) :=
  ⟨MonitorWhileAsleep, t0, rfl, Or.inr ⟨Or.inl rfl, rfl⟩⟩

theorem coherent_update (now : TimeStamp) {s : LazyServo} (h : Coherent s) :
    Coherent (update now s) := by
  obtain ⟨st, due, hp, hc⟩ := h
  by_cases hd : due ≤ now
  · have hw : s.chrono.where_to_go now = some st := where_to_go_pending due hp hd
    rcases hc with ⟨hst | hst, ha⟩ | ⟨hst | hst, ha⟩ <;> subst hst
    · cases hb : breach_lazyness_threshold s
      · rw [update_awake_quiet hw hb]
        exact ⟨ServoSleep, _, rfl, Or.inl ⟨Or.inr rfl, ha⟩⟩
      · rw [update_awake_breach hw hb]
        exact ⟨MonitorWhileAwake, _, rfl, Or.inl ⟨Or.inl rfl, ha⟩⟩
    · rw [update_sleep hw]
      exact ⟨MonitorWhileAsleep, _, rfl, Or.inr ⟨Or.inl rfl, rfl⟩⟩
    · cases hb : breach_lazyness_threshold s
      · rw [update_asleep_quiet hw hb]
        exact ⟨MonitorWhileAsleep, _, rfl, Or.inr ⟨Or.inl rfl, ha⟩⟩
      · rw [update_asleep_breach hw hb]
        exact ⟨ServoWakeup, _, rfl, Or.inr ⟨Or.inr rfl, ha⟩⟩
    · rw [update_wakeup hw]
      exact ⟨MonitorWhileAwake, _, rfl, Or.inl ⟨Or.inl rfl, rfl⟩⟩
  · rw [update_idle (where_to_go_early st due hp (not_le.mp hd))]
    exact ⟨st, due, hp, hc⟩

theorem coherent_step (op : Op) {s : LazyServo} (h : Coherent s) : Coherent (step op s) := by
  cases op with
  | set v => exact h
  | set_now now v => exact coherent_update now (s := set v s) h
  | get => exact h
  | set_servo_limits lo hi => exact h
  | update now => exact coherent_update now h

theorem coherent_run (ops : List Op) : ∀ {s : LazyServo}, Coherent s → Coherent (run s ops) := by
  induction ops with
  | nil => intro s h; exact h
  | cons op ops ih => intro s h; exact ih (coherent_step op h)

/-- The attach state after `update` is decided by the branch it ran. -/
theorem attached_update (now : TimeStamp) (s : LazyServo) :
    (update now s).servo.attached =
      if s.chrono.where_to_go now = some ServoWakeup then true
      else if s.chrono.where_to_go now = some ServoSleep then false
      else s.servo.attached := by
  unfold update
  simp only [MonitorWhileAsleep, MonitorWhileAwake, ServoWakeup, ServoSleep]
  split_ifs <;> simp_all [adjust_servo, Servo.attach, Servo.detach, Servo.writeMicroseconds]

theorem attached_step (op : Op) (s : LazyServo) :
    (step op s).servo.attached =
      if branch op s = some ServoWakeup then true
      else if branch op s = some ServoSleep then false
      else s.servo.attached := by
  cases op with
  | set v => simp [step, branch, set]
  | set_now now v => exact attached_update now (set v s)
  | get => simp [step, branch]
  | set_servo_limits lo hi => simp [step, branch, set_servo_limits]
  | update now => exact attached_update now s

theorem attached_run (ops : List Op) : ∀ s : LazyServo,
    (run s ops).servo.attached = wakeupMoreRecent s.servo.attached (branches s ops) := by
  induction ops with
  | nil => intro s; rfl
  | cons op ops ih =>
    intro s
    simp only [run, branches, wakeupMoreRecent]
    rw [ih (step op s), attached_step op s]
    split_ifs <;> rfl

theorem split_cons_iff (b : Option ChronoState) (bs : List (Option ChronoState)) :
    (∃ pre post, b :: bs = pre ++ some ServoWakeup :: post ∧ some ServoSleep ∉ post) ↔
      (b = some ServoWakeup ∧ some ServoSleep ∉ bs) ∨
      (∃ pre post, bs = pre ++ some ServoWakeup :: post ∧ some ServoSleep ∉ post) := by
  constructor
  · rintro ⟨pre, post, h, hn⟩
    cases pre with
    | nil =>
      simp only [List.nil_append, List.cons.injEq] at h
      obtain ⟨h1, h2⟩ := h
      subst h1 h2
      exact Or.inl ⟨rfl, hn⟩
    | cons a pre =>
      simp only [List.cons_append, List.cons.injEq] at h
      exact Or.inr ⟨pre, post, h.2, hn⟩
  · rintro (⟨h1, hn⟩ | ⟨pre, post, h, hn⟩)
    · exact ⟨[], bs, by rw [h1]; rfl, hn⟩
    · exact ⟨b :: pre, post, by rw [h]; rfl, hn⟩

/-- The scan `wakeupMoreRecent` says `true` exactly when some `ServoWakeup` in the history
has no `ServoSleep` after it, or the start value was `true` and there is no `ServoSleep`. -/
theorem wakeupMoreRecent_iff (bs : List (Option ChronoState)) : ∀ init : Bool,
    wakeupMoreRecent init bs = true ↔
      (∃ pre post, bs = pre ++ some ServoWakeup :: post ∧ some ServoSleep ∉ post) ∨
      (init = true ∧ some ServoSleep ∉ bs) := by
  induction bs with
  | nil => intro init; simp [wakeupMoreRecent]
  | cons b bs ih =>
    intro init
    rw [split_cons_iff]
    unfold wakeupMoreRecent
    by_cases hw : b = some ServoWakeup
    · subst hw
      rw [if_pos rfl, ih true]
      constructor
      · rintro (hP | ⟨-, hQ⟩)
        · exact Or.inl (Or.inr hP)
        · exact Or.inl (Or.inl ⟨rfl, hQ⟩)
      · rintro ((⟨-, hQ⟩ | hP) | ⟨-, hn⟩)
        · exact Or.inr ⟨rfl, hQ⟩
        · exact Or.inl hP
        · exact Or.inr ⟨rfl, fun hmem => hn (List.mem_cons_of_mem _ hmem)⟩
    · rw [if_neg hw]
      by_cases hs : b = some ServoSleep
      · subst hs
        rw [if_pos rfl, ih false]
        constructor
        · rintro (hP | ⟨hf, -⟩)
          · exact Or.inl (Or.inr hP)
          · exact absurd hf (by decide)
        · rintro ((⟨hf, -⟩ | hP) | ⟨-, hn⟩)
          · exact absurd hf hw
          · exact Or.inl hP
          · exact absurd (List.mem_cons_self _ _) hn
      · rw [if_neg hs, ih init]
        constructor
        · rintro (hP | ⟨hi, hQ⟩)
          · exact Or.inl (Or.inr hP)
          · refine Or.inr ⟨hi, fun hmem => ?_⟩
            rcases List.mem_cons.mp hmem with e | e
            · exact hs e.symm
            · exact hQ e
        · rintro ((⟨hb, -⟩ | hP) | ⟨hi, hn⟩)
          · exact absurd hb hw
          · exact Or.inl hP
          · exact Or.inr ⟨hi, fun hmem => hn (List.mem_cons_of_mem _ hmem)⟩

/-- C7: in every state reached from construction by a sequence of `set`, `set_now`, `get`,
`set_servo_limits` and `update` calls, the driver is attached exactly when some executed
`ServoWakeup` branch has no executed `ServoSleep` branch after it (so it is detached when
neither has run); and it is attached whenever `MonitorWhileAwake` is the state to run and
detached whenever `MonitorWhileAsleep` is. -/
theorem attached_iff_wakeup_more_recent (PIN : PinNumber) (t0 : TimeStamp) (th : RT)
    (ci : TimeSpan) (T lo hi : ℕ) (init : RT) (ops : List Op) :
    ((run (new PIN t0 th ci T lo hi init) ops).servo.attached = true ↔
      ∃ pre post, branches (new PIN t0 th ci T lo hi init) ops
          = pre ++ some ServoWakeup :: post ∧ some ServoSleep ∉ post)
    ∧ (∀ now, (run (new PIN t0 th ci T lo hi init) ops).chrono.where_to_go now
          = some MonitorWhileAwake →
        (run (new PIN t0 th ci T lo hi init) ops).servo.attached = true)
    ∧ (∀ now, (run (new PIN t0 th ci T lo hi init) ops).chrono.where_to_go now
          = some MonitorWhileAsleep →
        (run (new PIN t0 th ci T lo hi init) ops).servo.attached = false) := by
  have hc := coherent_run ops (coherent_new PIN t0 th ci T lo hi init)
  refine ⟨?_, ?_, ?_⟩
  · rw [attached_run, wakeupMoreRecent_iff]
    have h0 : (new PIN t0 th ci T lo hi init).servo.attached = false := rfl
    simp [h0]
  · intro now hw
    obtain ⟨st, due, hp, hcase⟩ := hc
    obtain ⟨due2, hp2, -⟩ := pending_of_where_to_go hw
    rw [hp] at hp2
    simp only [Option.some.injEq, Prod.mk.injEq] at hp2
    obtain ⟨rfl, -⟩ := hp2
    rcases hcase with ⟨-, ha⟩ | ⟨hst | hst, -⟩
    · exact ha
    · exact absurd hst (by decide)
    · exact absurd hst (by decide)
  · intro now hw
    obtain ⟨st, due, hp, hcase⟩ := hc
    obtain ⟨due2, hp2, -⟩ := pending_of_where_to_go hw
    rw [hp] at hp2
    simp only [Option.some.injEq, Prod.mk.injEq] at hp2
    obtain ⟨rfl, -⟩ := hp2
    rcases hcase with ⟨hst | hst, -⟩ | ⟨-, ha⟩
    · exact absurd hst (by decide)
    · exact absurd hst (by decide)
    · exact ha

/-! ## Frame properties -/

/-- What one `update` does to the driver and to the last written value: nothing; or one
`detach`; or one write; or one `attach` followed by one write.  The last written value
becomes the target exactly in the two cases with a write. -/
theorem update_servo_cases (now : TimeStamp) (s : LazyServo) :
    ((update now s).servo.calls = s.servo.calls
        ∧ (update now s).prev_adjusted_value = s.prev_adjusted_value)
    ∨ ((update now s).servo.calls = s.servo.calls ++ [ServoCall.detach]
        ∧ (update now s).prev_adjusted_value = s.prev_adjusted_value)
    ∨ ((update now s).servo.calls
          = s.servo.calls ++ [ServoCall.writeMicroseconds (target_position_micros s)]
        ∧ (update now s).prev_adjusted_value = s.target_value)
    ∨ ((update now s).servo.calls
          = s.servo.calls ++ [ServoCall.attach s.PIN,
                              ServoCall.writeMicroseconds (target_position_micros s)]
        ∧ (update now s).prev_adjusted_value = s.target_value) := by
  unfold update
  simp only [MonitorWhileAsleep, MonitorWhileAwake, ServoWakeup, ServoSleep]
  split_ifs <;>
    simp [adjust_servo, Servo.attach, Servo.detach, Servo.writeMicroseconds,
      target_position_micros]

/-- A poll that changes the last written value sends exactly one pulse width. -/
theorem update_write_of_changed (now : TimeStamp) (s : LazyServo)
    (h : (update now s).prev_adjusted_value ≠ s.prev_adjusted_value) :
    ∃ p, pulses (update now s).servo.calls = pulses s.servo.calls ++ [p] := by
  rcases update_servo_cases now s with ⟨-, hp⟩ | ⟨-, hp⟩ | ⟨hc, -⟩ | ⟨hc, -⟩
  · exact absurd hp h
  · exact absurd hp h
  · exact ⟨target_position_micros s, by rw [hc, pulses_append]; rfl⟩
  · exact ⟨target_position_micros s, by rw [hc, pulses_append]; rfl⟩

/-- C8: `prev_adjusted_value` is left unchanged by `set`, `get`, `set_servo_limits`, a poll
with `ServoSleep` due, a poll with `MonitorWhileAsleep` due, a poll with `MonitorWhileAwake`
due that finds no breach, and a poll with no state due; and whichever call of the public
interface changes it also sends exactly one pulse width to the driver. -/
theorem prev_adjusted_value_frame (s : LazyServo) :
    (∀ v, (step (Op.set v) s).prev_adjusted_value = s.prev_adjusted_value)
    ∧ (step Op.get s).prev_adjusted_value = s.prev_adjusted_value
    ∧ (∀ lo hi, (step (Op.set_servo_limits lo hi) s).prev_adjusted_value
        = s.prev_adjusted_value)
    ∧ (∀ now, s.chrono.where_to_go now = some ServoSleep →
        (step (Op.update now) s).prev_adjusted_value = s.prev_adjusted_value)
    ∧ (∀ now, s.chrono.where_to_go now = some MonitorWhileAsleep →
        (step (Op.update now) s).prev_adjusted_value = s.prev_adjusted_value)
    ∧ (∀ now, s.chrono.where_to_go now = some MonitorWhileAwake →
        breach_lazyness_threshold s = false →
        (step (Op.update now) s).prev_adjusted_value = s.prev_adjusted_value)
    ∧ (∀ now, s.chrono.where_to_go now = none →
        (step (Op.update now) s).prev_adjusted_value = s.prev_adjusted_value)
    ∧ (∀ op, (step op s).prev_adjusted_value ≠ s.prev_adjusted_value →
        ∃ p, pulses (step op s).servo.calls = pulses s.servo.calls ++ [p]) := by
  refine ⟨fun _ => rfl, rfl, fun _ _ => rfl, ?_, ?_, ?_, ?_, ?_⟩
  · intro now h
    show (update now s).prev_adjusted_value = _
    rw [update_sleep h]
  · intro now h
    show (update now s).prev_adjusted_value = _
    cases hb : breach_lazyness_threshold s
    · rw [update_asleep_quiet h hb]
    · rw [update_asleep_breach h hb]
  · intro now h hb
    show (update now s).prev_adjusted_value = _
    rw [update_awake_quiet h hb]
  · intro now h
    show (update now s).prev_adjusted_value = _
    rw [update_idle h]
  · intro op h
    cases op with
    | set v => exact absurd rfl h
    | set_now now v => exact update_write_of_changed now (set v s) h
    | get => exact absurd rfl h
    | set_servo_limits lo hi => exact absurd rfl h
    | update now => exact update_write_of_changed now s h

/-- Witness for C8: `set_now (9/10)` on the awake sample controller changes the last written
value and sends one pulse width. -/
theorem prev_adjusted_value_frame_witness :
    (step (Op.set_now 5 (9 / 10)) sampleAwake).prev_adjusted_value
        ≠ sampleAwake.prev_adjusted_value
    ∧ ∃ p, pulses (step (Op.set_now 5 (9 / 10)) sampleAwake).servo.calls
        = pulses sampleAwake.servo.calls ++ [p] :=
  ⟨by decide!,
    (prev_adjusted_value_frame sampleAwake).2.2.2.2.2.2.2 (Op.set_now 5 (9 / 10)) (by decide!)⟩

/-- C9: after `set v`, whatever `v` and the state, `get` returns `v`; the last written
value, the pulse bounds, the driver (attach state and call history), the scheduler (pending
transition and call history) and the rest of the configuration are unchanged. -/
theorem set_frame (s : LazyServo) (v : RT) :
    get (set v s) = v
    ∧ (set v s).prev_adjusted_value = s.prev_adjusted_value
    ∧ (set v s).min_usecs = s.min_usecs
    ∧ (set v s).max_usecs = s.max_usecs
    ∧ (set v s).servo.attached = s.servo.attached
    ∧ (set v s).servo.calls = s.servo.calls
    ∧ (set v s).chrono.pending = s.chrono.pending
    ∧ (set v s).chrono.calls = s.chrono.calls
    ∧ (set v s).move_lazyness_thresh = s.move_lazyness_thresh
    ∧ (set v s).check_interval = s.check_interval
    ∧ (set v s).timeout_before_dozing = s.timeout_before_dozing
    ∧ (set v s).PIN = s.PIN :=
  ⟨rfl, rfl, rfl, rfl, rfl, rfl, rfl, rfl, rfl, rfl, rfl, rfl⟩

theorem set_set (s : LazyServo) (v w : RT) : set v (set w s) = set v s := rfl

theorem iterate_set (v : RT) (n : ℕ) (s : LazyServo) :
    Nat.iterate (set v) (n + 1) s = set v s := by
  induction n with
  | zero => rfl
  | succ k ih => rw [Function.iterate_succ_apply', ih, set_set]

/-- C10: `n ≥ 1` consecutive calls `set v` followed by one poll leave the controller,
driver and scheduler histories included, in the same state as a single `set v` followed by
the poll; and the poll extends the driver's history by calls among which there is at most
one write. -/
theorem set_idempotent (s : LazyServo) (v : RT) (n : ℕ) (now : TimeStamp) (hn : 1 ≤ n) :
    update now (Nat.iterate (set v) n s) = update now (set v s)
    ∧ ∃ cs, (update now (Nat.iterate (set v) n s)).servo.calls = s.servo.calls ++ cs
        ∧ (pulses cs).length ≤ 1 := by
  obtain ⟨k, rfl⟩ : ∃ k, n = k + 1 := ⟨n - 1, by omega⟩
  rw [iterate_set]
  refine ⟨rfl, ?_⟩
  rcases update_servo_cases now (set v s) with ⟨hc, -⟩ | ⟨hc, -⟩ | ⟨hc, -⟩ | ⟨hc, -⟩
  · exact ⟨[], by rw [hc]; simp [set], by simp [pulses]⟩
  · exact ⟨_, hc, by simp [pulses]⟩
  · exact ⟨_, hc, by simp [pulses]⟩
  · exact ⟨_, hc, by simp [pulses]⟩

/-- Witness for C10: three calls `set (9/10)` on the awake sample controller, then a poll
at time 5, which writes 2300 microseconds once. -/
theorem set_idempotent_witness :
    (1 : ℕ) ≤ 3
    ∧ update 5 (Nat.iterate (set (9 / 10)) 3 sampleAwake) = update 5 (set (9 / 10) sampleAwake)
    ∧ (update 5 (Nat.iterate (set (9 / 10)) 3 sampleAwake)).servo.calls
        = sampleAwake.servo.calls ++ [ServoCall.writeMicroseconds 2300] :=
  ⟨by decide, (set_idempotent sampleAwake (9 / 10) 3 5 (by decide)).1, by decide!⟩

/-! ## The stored configuration -/

/-- C11: the configuration stored by the constructor called with all default arguments.
The lazyness threshold is 1/1000, the check interval 100000, the pulse bounds 500 and 2500
and the initial target 1/2; the dozing timeout, passed and stored as `U16`, is 33920, which
is 2000000 modulo 65536, and not 2000000. -/
theorem default_configuration (PIN : PinNumber) (now : TimeStamp) :
    (newDefault PIN now).move_lazyness_thresh = 1 / 1000
    ∧ (newDefault PIN now).check_interval = 100000
    ∧ (newDefault PIN now).timeout_before_dozing = 33920
    ∧ (newDefault PIN now).timeout_before_dozing ≠ 2000000
    ∧ (newDefault PIN now).min_usecs = 500
    ∧ (newDefault PIN now).max_usecs = 2500
    ∧ (newDefault PIN now).target_value = 1 / 2 := by
  have hT : (newDefault PIN now).timeout_before_dozing = 33920 := rfl
  refine ⟨rfl, rfl, hT, by rw [hT]; decide, ?_, ?_, rfl⟩
  · simp [newDefault, new, set_servo_limits]
  · simp [newDefault, new, set_servo_limits]

/-! ## Targets outside the unit range -/

/-- C13, as stated, fails: the controller with threshold 0 that has just written its target
has `MonitorWhileAwake` due and finds no breach, and its poll sends nothing to the driver;
the controller with threshold 0 and initial target -1 has `MonitorWhileAsleep` due on its
first poll and finds no breach either. -/
theorem zero_threshold_without_breach :
    sampleZero.move_lazyness_thresh = 0
    ∧ sampleZero.chrono.where_to_go 0 = some MonitorWhileAwake
    ∧ breach_lazyness_threshold sampleZero = false
    ∧ (update 0 sampleZero).servo = sampleZero.servo
    ∧ (new 9 0 0 (100 * 1000) (2000 * 1000) 500 2500 (-1)).chrono.where_to_go 0
        = some MonitorWhileAsleep
    ∧ breach_lazyness_threshold (new 9 0 0 (100 * 1000) (2000 * 1000) 500 2500 (-1))
        = false := by
  refine ⟨by decide!, by decide!, by decide!, by decide!, by decide!, by decide!⟩

/-- C13, amended: with the lazyness threshold zero the breach test is true exactly when the
target differs from the last written value; so a poll in a monitoring state finds a breach
whenever the two differ, and finds none right after a physical write. -/
theorem zero_threshold_breach (s : LazyServo) (h : s.move_lazyness_thresh = 0) :
    (breach_lazyness_threshold s = true ↔ s.target_value ≠ s.prev_adjusted_value)
    ∧ breach_lazyness_threshold (adjust_servo s) = false := by
  constructor
  · rw [breach_iff, h, abs_pos, sub_ne_zero]
  · rw [breach_false_iff]
    simp [adjust_servo, h]

/-- Witness for C13 (amended): the controller with threshold 0, last written value 1/2 and
new target 3/4 finds a breach. -/
theorem zero_threshold_breach_witness :
    (set (3 / 4) sampleZero).move_lazyness_thresh = 0
    ∧ breach_lazyness_threshold (set (3 / 4) sampleZero) = true :=
  ⟨by decide!,
    (zero_threshold_breach (set (3 / 4) sampleZero) (by decide!)).1.mpr (by decide!)⟩

/-! ## Changing the pulse bounds -/

/-- C14: `set_servo_limits lo hi` stores the two bounds (as 16-bit values) and changes
nothing else: target, last written value, driver (attach state and call history),
scheduler (pending transition and call history) and the rest of the configuration are
unchanged.  The new bounds are used by the next physical write: `adjust_servo` then sends
the pulse width computed from them, and whatever the next poll sends is computed from
them. -/
theorem set_servo_limits_frame (s : LazyServo) (lo hi : ℕ) :
    (set_servo_limits lo hi s).min_usecs = ((lo % 65536 : ℕ) : ℚ)
    ∧ (set_servo_limits lo hi s).max_usecs = ((hi % 65536 : ℕ) : ℚ)
    ∧ (set_servo_limits lo hi s).target_value = s.target_value
    ∧ (set_servo_limits lo hi s).prev_adjusted_value = s.prev_adjusted_value
    ∧ (set_servo_limits lo hi s).servo = s.servo
    ∧ (set_servo_limits lo hi s).chrono = s.chrono
    ∧ (set_servo_limits lo hi s).move_lazyness_thresh = s.move_lazyness_thresh
    ∧ (set_servo_limits lo hi s).check_interval = s.check_interval
    ∧ (set_servo_limits lo hi s).timeout_before_dozing = s.timeout_before_dozing
    ∧ (set_servo_limits lo hi s).PIN = s.PIN
    ∧ target_position_micros (set_servo_limits lo hi s)
        = toU16 (lround (((lo % 65536 : ℕ) : ℚ)
            + ((((hi % 65536 : ℕ) : ℚ)) - ((lo % 65536 : ℕ) : ℚ)) * s.target_value))
    ∧ (adjust_servo (set_servo_limits lo hi s)).servo.calls
        = s.servo.calls ++ [ServoCall.writeMicroseconds
            (target_position_micros (set_servo_limits lo hi s))]
    ∧ (∀ now,
        (update now (set_servo_limits lo hi s)).servo.calls = s.servo.calls
        ∨ (update now (set_servo_limits lo hi s)).servo.calls
            = s.servo.calls ++ [ServoCall.detach]
        ∨ (update now (set_servo_limits lo hi s)).servo.calls
            = s.servo.calls ++ [ServoCall.writeMicroseconds
                (target_position_micros (set_servo_limits lo hi s))]
        ∨ (update now (set_servo_limits lo hi s)).servo.calls
            = s.servo.calls ++ [ServoCall.attach s.PIN, ServoCall.writeMicroseconds
                (target_position_micros (set_servo_limits lo hi s))]) := by
  refine ⟨rfl, rfl, rfl, rfl, rfl, rfl, rfl, rfl, rfl, rfl, rfl, rfl, ?_⟩
  intro now
  rcases update_servo_cases now (set_servo_limits lo hi s) with h | h | h | h
  · exact Or.inl h.1
  · exact Or.inr (Or.inl h.1)
  · exact Or.inr (Or.inr (Or.inl h.1))
  · exact Or.inr (Or.inr (Or.inr h.1))

/-! ## Setting and polling at once -/

/-- C17: a poll with `ServoWakeup` due, whatever the target and the last written value (so
also when the breach test is false), sends the driver `attach PIN` and then one write of
the pulse width computed from the target, leaves the driver attached and the last written
value equal to the target, and arms `MonitorWhileAwake` with zero delay, so that it is due at
the time of the same poll. -/
theorem update_wakeup_forced (s : LazyServo) (now : TimeStamp)
    (h : s.chrono.where_to_go now = some ServoWakeup) :
    (update now s).servo.calls
        = s.servo.calls ++ [ServoCall.attach s.PIN,
                            ServoCall.writeMicroseconds (target_position_micros s)]
    ∧ (update now s).servo.attached = true
    ∧ (update now s).prev_adjusted_value = s.target_value
    ∧ (update now s).target_value = s.target_value
    ∧ (update now s).chrono.calls = s.chrono.calls ++ [ChronoCall.go_next MonitorWhileAwake]
    ∧ (update now s).chrono.pending = some (MonitorWhileAwake, now)
    ∧ (update now s).chrono.where_to_go now = some MonitorWhileAwake := by
  rw [update_wakeup h]
  refine ⟨?_, rfl, rfl, rfl, rfl, rfl, where_to_go_pending now rfl (le_refl now)⟩
  simp [adjust_servo, Servo.attach, Servo.writeMicroseconds, target_position_micros]

/-- Witness for C17: `ServoWakeup` is due while the target 1/2 is within the threshold 2 of
the sentinel; the poll attaches and writes 1500 microseconds all the same. -/
theorem update_wakeup_forced_witness :
    (sampleWakeupQuiet.chrono.where_to_go 0 = some ServoWakeup
      ∧ breach_lazyness_threshold sampleWakeupQuiet = false)
    ∧ (update 0 sampleWakeupQuiet).servo.calls
        = [ServoCall.attach 9, ServoCall.writeMicroseconds 1500] :=
  ⟨⟨by decide!, by decide!⟩,
    ((update_wakeup_forced sampleWakeupQuiet 0 (by decide!)).1).trans (by decide!)⟩

/-! ## One pending transition -/

/-- A poll of a coherent controller at which a state is due makes scheduling calls that arm
exactly one state, and that state is the pending one afterwards, due at or after the poll. -/
theorem update_arms_one (now : TimeStamp) {s : LazyServo} (h : Coherent s)
    (hw : s.chrono.where_to_go now ≠ none) :
    ∃ cs st due, (update now s).chrono.calls = s.chrono.calls ++ cs ∧ arms cs = [st]
      ∧ now ≤ due ∧ (update now s).chrono.pending = some (st, due) := by
  obtain ⟨st, due, hp, hc⟩ := h
  by_cases hd : due ≤ now
  · have hw : s.chrono.where_to_go now = some st := where_to_go_pending due hp hd
    rcases hc with ⟨hst | hst, -⟩ | ⟨hst | hst, -⟩ <;> subst hst
    · cases hb : breach_lazyness_threshold s
      · rw [update_awake_quiet hw hb]
        exact ⟨_, ServoSleep, _, rfl, rfl, Nat.le_add_right _ _, rfl⟩
      · rw [update_awake_breach hw hb]
        exact ⟨_, MonitorWhileAwake, _, rfl, rfl, Nat.le_add_right _ _, rfl⟩
    · rw [update_sleep hw]
      exact ⟨_, MonitorWhileAsleep, _, rfl, rfl, le_refl _, rfl⟩
    · cases hb : breach_lazyness_threshold s
      · rw [update_asleep_quiet hw hb]
        exact ⟨_, MonitorWhileAsleep, _, rfl, rfl, Nat.le_add_right _ _, rfl⟩
      · rw [update_asleep_breach hw hb]
        refine ⟨[ChronoCall.cancel_scheduled_state, ChronoCall.go_next ServoWakeup],
          ServoWakeup, now, ?_, rfl, le_refl _, rfl⟩
        simp [ChronoTrigger.go_next, ChronoTrigger.cancel_scheduled_state]
    · rw [update_wakeup hw]
      exact ⟨_, MonitorWhileAwake, _, rfl, rfl, le_refl _, rfl⟩
  · exact absurd (where_to_go_early st due hp (not_le.mp hd)) hw

/-- C15: the constructor arms `MonitorWhileAsleep` and nothing else; in every state reached
from construction by calls of the public interface one transition is pending, and its state
is one of `MonitorWhileAwake`, `MonitorWhileAsleep`, `ServoSleep`, `ServoWakeup`; a poll at
which no state is due changes nothing, and a poll at which a state is due arms exactly one
state, which supersedes the previous one as the pending transition.  This covers any number
of consecutive polls of an idle controller. -/
theorem one_pending_transition (PIN : PinNumber) (t0 : TimeStamp) (th : RT)
    (ci : TimeSpan) (T lo hi : ℕ) (init : RT) (ops : List Op) :
    (new PIN t0 th ci T lo hi init).chrono.pending = some (MonitorWhileAsleep, t0)
    ∧ arms (new PIN t0 th ci T lo hi init).chrono.calls = [MonitorWhileAsleep]
    ∧ (∃ st due, (run (new PIN t0 th ci T lo hi init) ops).chrono.pending = some (st, due)
        ∧ (st = MonitorWhileAwake ∨ st = MonitorWhileAsleep
            ∨ st = ServoSleep ∨ st = ServoWakeup))
    ∧ (∀ now, (run (new PIN t0 th ci T lo hi init) ops).chrono.where_to_go now = none →
        update now (run (new PIN t0 th ci T lo hi init) ops)
          = run (new PIN t0 th ci T lo hi init) ops)
    ∧ (∀ now, (run (new PIN t0 th ci T lo hi init) ops).chrono.where_to_go now ≠ none →
        ∃ cs st due,
          (update now (run (new PIN t0 th ci T lo hi init) ops)).chrono.calls
              = (run (new PIN t0 th ci T lo hi init) ops).chrono.calls ++ cs
          ∧ arms cs = [st] ∧ now ≤ due
          ∧ (update now (run (new PIN t0 th ci T lo hi init) ops)).chrono.pending
              = some (st, due)) := by
  have hc := coherent_run ops (coherent_new PIN t0 th ci T lo hi init)
  refine ⟨rfl, rfl, ?_, fun now h => update_idle h, fun now h => update_arms_one now hc h⟩
  obtain ⟨st, due, hp, hcase⟩ := hc
  refine ⟨st, due, hp, ?_⟩
  rcases hcase with ⟨h | h, -⟩ | ⟨h | h, -⟩
  · exact Or.inl h
  · exact Or.inr (Or.inr (Or.inl h))
  · exact Or.inr (Or.inl h)
  · exact Or.inr (Or.inr (Or.inr h))

/-! ## Writes reach an attached driver -/

theorem writesSafe_extend {s s' : LazyServo} (cs : List ServoCall)
    (hc : s'.servo.calls = s.servo.calls ++ cs)
    (ha : attachedAfterCalls s.servo.attached cs = s'.servo.attached)
    (hw : writesAttached s.servo.attached cs = true) (hs : WritesSafe s) : WritesSafe s' := by
  obtain ⟨h1, h2⟩ := hs
  constructor
  · rw [hc, attachedAfterCalls_append, h1, ha]
  · rw [hc, writesAttached_append, h1, h2, hw]
    rfl

theorem writesSafe_new (PIN : PinNumber) (t0 : TimeStamp) (th : RT) (ci : TimeSpan)
    (T lo hi : ℕ) (init : RT) : WritesSafe (new PIN t0 th ci T lo hi init) :=
  ⟨rfl, rfl⟩

theorem writesSafe_update (now : TimeStamp) {s : LazyServo} (h : Coherent s)
    (hs : WritesSafe s) : WritesSafe (update now s) := by
  obtain ⟨st, due, hp, hc⟩ := h
  by_cases hd : due ≤ now
  · have hw : s.chrono.where_to_go now = some st := where_to_go_pending due hp hd
    rcases hc with ⟨hst | hst, ha⟩ | ⟨hst | hst, ha⟩ <;> subst hst
    · cases hb : breach_lazyness_threshold s
      · rw [update_awake_quiet hw hb]; exact hs
      · rw [update_awake_breach hw hb]
        refine writesSafe_extend [ServoCall.writeMicroseconds (target_position_micros s)]
          rfl rfl ?_ hs
        rw [ha]; rfl
    · rw [update_sleep hw]
      exact writesSafe_extend [ServoCall.detach] rfl rfl rfl hs
    · cases hb : breach_lazyness_threshold s
      · rw [update_asleep_quiet hw hb]; exact hs
      · rw [update_asleep_breach hw hb]; exact hs
    · rw [update_wakeup hw]
      refine writesSafe_extend
        [ServoCall.attach s.PIN, ServoCall.writeMicroseconds (target_position_micros s)]
        ?_ rfl rfl hs
      simp [adjust_servo, Servo.attach, Servo.writeMicroseconds, target_position_micros]
  · rw [update_idle (where_to_go_early st due hp (not_le.mp hd))]
    exact hs

theorem writesSafe_step (op : Op) {s : LazyServo} (h : Coherent s) (hs : WritesSafe s) :
    WritesSafe (step op s) := by
  cases op with
  | set v => exact hs
  | set_now now v => exact writesSafe_update now (s := set v s) h hs
  | get => exact hs
  | set_servo_limits lo hi => exact hs
  | update now => exact writesSafe_update now h hs

theorem writesSafe_run (ops : List Op) : ∀ {s : LazyServo}, Coherent s → WritesSafe s →
    WritesSafe (run s ops) := by
  induction ops with
  | nil => intro s _ hs; exact hs
  | cons op ops ih => intro s h hs; exact ih (coherent_step op h) (writesSafe_step op h hs)

/-- C18: in every state reached from construction by a sequence of `set`, `set_now`, `get`,
`set_servo_limits` and `update` calls, every `writeMicroseconds` in the driver's call
history arrives while the driver is attached: replaying the history from the detached
start, the calls before any write leave the driver attached. -/
theorem writes_only_while_attached (PIN : PinNumber) (t0 : TimeStamp) (th : RT)
    (ci : TimeSpan) (T lo hi : ℕ) (init : RT) (ops : List Op) :
    writesAttached false (run (new PIN t0 th ci T lo hi init) ops).servo.calls = true
    ∧ ∀ pre us post,
        (run (new PIN t0 th ci T lo hi init) ops).servo.calls
            = pre ++ ServoCall.writeMicroseconds us :: post →
        attachedAfterCalls false pre = true := by
  have hs := writesSafe_run ops (coherent_new PIN t0 th ci T lo hi init)
    (writesSafe_new PIN t0 th ci T lo hi init)
  refine ⟨hs.2, ?_⟩
  intro pre us post hcalls
  have h := hs.2
  rw [hcalls] at h
  exact attached_before_write h

/-! ## Range and monotonicity of the pulse width -/

/-- The pulse width computed for bounds `lo ≤ hi < 65536` and a target in `[0, 1]` is the
rounded value itself, between the bounds. -/
theorem target_position_micros_range (s : LazyServo) (lo hi : ℕ) (t : ℚ)
    (hle : lo ≤ hi) (hhi : hi < 65536) (h0 : 0 ≤ t) (h1 : t ≤ 1) :
    ((target_position_micros (set t (set_servo_limits lo hi s)) : ℕ) : ℤ)
        = lround ((lo : ℚ) + ((hi : ℚ) - (lo : ℚ)) * t)
    ∧ lo ≤ target_position_micros (set t (set_servo_limits lo hi s))
    ∧ target_position_micros (set t (set_servo_limits lo hi s)) ≤ hi := by
  have hlo : lo < 65536 := lt_of_le_of_lt hle hhi
  obtain ⟨hmin, hmax⟩ := pulse_between lo hi h0 h1
  rw [min_eq_left hle] at hmin
  rw [max_eq_right hle] at hmax
  have hr := lround_mem_Icc (x := (lo : ℚ) + ((hi : ℚ) - (lo : ℚ)) * t) (a := (lo : ℤ))
    (b := (hi : ℤ)) (by exact_mod_cast hmin) (by exact_mod_cast hmax)
  have hdef : target_position_micros (set t (set_servo_limits lo hi s))
      = toU16 (lround ((lo : ℚ) + ((hi : ℚ) - (lo : ℚ)) * t)) := by
    simp [target_position_micros, set, set_servo_limits, Nat.mod_eq_of_lt hlo,
      Nat.mod_eq_of_lt hhi]
  have hp := toU16_of_lt (z := lround ((lo : ℚ) + ((hi : ℚ) - (lo : ℚ)) * t))
    (by omega) (by omega)
  rw [hdef]
  refine ⟨hp, ?_, ?_⟩ <;> omega

/-- C19: for 16-bit bounds `lo ≤ hi` and targets `0 ≤ t1 ≤ t2 ≤ 1`, the pulse widths
computed by the physical write lie between `lo` and `hi`, are the rounded values themselves
(the conversion to `U16` does not wrap), and the one for `t1` is at most the one for
`t2`. -/
theorem pulse_range_monotone (s : LazyServo) (lo hi : ℕ) (t1 t2 : ℚ)
    (hle : lo ≤ hi) (hhi : hi < 65536) (h0 : 0 ≤ t1) (h12 : t1 ≤ t2) (h1 : t2 ≤ 1) :
    (lo ≤ target_position_micros (set t1 (set_servo_limits lo hi s))
      ∧ target_position_micros (set t1 (set_servo_limits lo hi s)) ≤ hi)
    ∧ (lo ≤ target_position_micros (set t2 (set_servo_limits lo hi s))
      ∧ target_position_micros (set t2 (set_servo_limits lo hi s)) ≤ hi)
    ∧ ((target_position_micros (set t1 (set_servo_limits lo hi s)) : ℕ) : ℤ)
        = lround ((lo : ℚ) + ((hi : ℚ) - (lo : ℚ)) * t1)
    ∧ (adjust_servo (set t1 (set_servo_limits lo hi s))).servo.calls
        = s.servo.calls ++ [ServoCall.writeMicroseconds
            (target_position_micros (set t1 (set_servo_limits lo hi s)))]
    ∧ target_position_micros (set t1 (set_servo_limits lo hi s))
        ≤ target_position_micros (set t2 (set_servo_limits lo hi s)) := by
  have ha := target_position_micros_range s lo hi t1 hle hhi h0 (le_trans h12 h1)
  have hb := target_position_micros_range s lo hi t2 hle hhi (le_trans h0 h12) h1
  refine ⟨ha.2, hb.2, ha.1, rfl, ?_⟩
  have hq : (0 : ℚ) ≤ (hi : ℚ) - (lo : ℚ) := by
    have : (lo : ℚ) ≤ (hi : ℚ) := by exact_mod_cast hle
    linarith
  have hm : lround ((lo : ℚ) + ((hi : ℚ) - (lo : ℚ)) * t1)
      ≤ lround ((lo : ℚ) + ((hi : ℚ) - (lo : ℚ)) * t2) :=
    lround_mono (by nlinarith)
  have h3 := ha.1
  have h4 := hb.1
  omega

/-- Witness for C19: bounds 500 and 2500, targets 1/4 and 3/4, written as 1000 and 2000. -/
theorem pulse_range_monotone_witness :
    ((500 : ℕ) ≤ 2500 ∧ (2500 : ℕ) < 65536 ∧ (0 : ℚ) ≤ 1 / 4 ∧ (1 / 4 : ℚ) ≤ 3 / 4
      ∧ (3 / 4 : ℚ) ≤ 1)
    ∧ target_position_micros (set (1 / 4) (set_servo_limits 500 2500 (newDefault 9 0))) = 1000
    ∧ target_position_micros (set (3 / 4) (set_servo_limits 500 2500 (newDefault 9 0))) = 2000
    ∧ target_position_micros (set (1 / 4) (set_servo_limits 500 2500 (newDefault 9 0)))
        ≤ target_position_micros (set (3 / 4) (set_servo_limits 500 2500 (newDefault 9 0))) :=
  ⟨⟨by decide, by decide, by norm_num, by norm_num, by norm_num⟩, by decide!, by decide!,
    (pulse_range_monotone (newDefault 9 0) 500 2500 (1 / 4) (3 / 4) (by decide) (by decide)
      (by norm_num) (by norm_num) (by norm_num)).2.2.2.2⟩

/-! ## After a write -/

/-- C20: with a lazyness threshold `≥ 0`, right after a poll that performed a physical write
(the `ServoWakeup` branch, or the `MonitorWhileAwake` branch with a breach) the breach test
is false; so a following poll with `MonitorWhileAwake` due, with no `set` in between, sends
nothing to the driver and leaves `ServoSleep` pending, due after the dozing timeout. -/
theorem no_second_write (s : LazyServo) (now : TimeStamp)
    (hth : 0 ≤ s.move_lazyness_thresh)
    (h : s.chrono.where_to_go now = some ServoWakeup
      ∨ (s.chrono.where_to_go now = some MonitorWhileAwake
          ∧ breach_lazyness_threshold s = true)) :
    breach_lazyness_threshold (update now s) = false
    ∧ ∀ now2, (update now s).chrono.where_to_go now2 = some MonitorWhileAwake →
        (update now2 (update now s)).servo = (update now s).servo
        ∧ (update now2 (update now s)).prev_adjusted_value
            = (update now s).prev_adjusted_value
        ∧ (update now2 (update now s)).chrono.pending
            = some (ServoSleep, now2 + s.timeout_before_dozing) := by
  have hb : breach_lazyness_threshold (update now s) = false := by
    rw [breach_false_iff]
    rcases h with h | ⟨h, hbr⟩
    · rw [update_wakeup h]
      simpa [adjust_servo] using hth
    · rw [update_awake_breach h hbr]
      simpa [adjust_servo] using hth
  have hT : (update now s).timeout_before_dozing = s.timeout_before_dozing := by
    rcases h with h | ⟨h, hbr⟩
    · rw [update_wakeup h]; rfl
    · rw [update_awake_breach h hbr]; rfl
  refine ⟨hb, ?_⟩
  intro now2 hw
  rw [update_awake_quiet hw hb, ← hT]
  exact ⟨rfl, rfl, rfl⟩

/-- Witness for C20: the default controller with `ServoWakeup` due at time 0 writes once;
the next poll, at time 7 with `MonitorWhileAwake` due, adds no call. -/
theorem no_second_write_witness :
    ((0 : ℚ) ≤ (update 0 (newDefault 9 0)).move_lazyness_thresh
      ∧ (update 0 (newDefault 9 0)).chrono.where_to_go 0 = some ServoWakeup
      ∧ (update 0 (update 0 (newDefault 9 0))).chrono.where_to_go 7 = some MonitorWhileAwake)
    ∧ breach_lazyness_threshold (update 0 (update 0 (newDefault 9 0))) = false
    ∧ (update 7 (update 0 (update 0 (newDefault 9 0)))).servo.calls
        = [ServoCall.attach 9, ServoCall.writeMicroseconds 1500] :=
  ⟨⟨by decide!, by decide!, by decide!⟩,
    (no_second_write (update 0 (newDefault 9 0)) 0 (by decide!) (Or.inl (by decide!))).1,
    (congrArg Servo.calls
      ((no_second_write (update 0 (newDefault 9 0)) 0 (by decide!) (Or.inl (by decide!))).2 7
        (by decide!)).1).trans (by decide!)⟩

end LazyServo

end Duino
